import Mathlib

/-!
Verification development for the `useRemoteThreadLiveConnection` hook of
CodexMonitor: the connection-lifecycle coordinator that keeps a live
subscription to a remote thread in sync with UI selection, focus and
visibility, deduplicating and invalidating overlapping reconnection
attempts.

The TypeScript source is shallowly embedded: JS strings become lists of
characters, the hook's mutable refs become fields of a `Coord` record, and
each `async` function is split at its `await` points into explicit
segments, so an in-flight reconnection attempt is a value (`Attempt`)
carrying a program counter.  External collaborators (subscribe,
unsubscribe, refreshThread, reconnectWorkspace) are opaque: the model
records the calls issued to them (`ExtCall`) and takes the outcome of each
awaited call as an input (`ResumeOutcome`).
-/

namespace CodexMonitor

/-- JS strings are modelled as lists of characters. -/
abbrev JSString := List Char

/-- The string constant `"remote"`. -/
def remoteStr : JSString := ['r', 'e', 'm', 'o', 't', 'e']

/-- The string constant `"turn/started"`. -/
def turnStartedStr : JSString := ['t', 'u', 'r', 'n', '/', 's', 't', 'a', 'r', 't', 'e', 'd']

/-- The string constant `"turn/completed"`. -/
def turnCompletedStr : JSString :=
  ['t', 'u', 'r', 'n', '/', 'c', 'o', 'm', 'p', 'l', 'e', 't', 'e', 'd']

/-- The string constant `"error"`. -/
def errorStr : JSString := ['e', 'r', 'r', 'o', 'r']

/-- The string constant `"codex/connected"`. -/
def codexConnectedStr : JSString :=
  ['c', 'o', 'd', 'e', 'x', '/', 'c', 'o', 'n', 'n', 'e', 'c', 't', 'e', 'd']

/-- The string constant `"thread/live_attached"`. -/
def liveAttachedStr : JSString :=
  ['t', 'h', 'r', 'e', 'a', 'd', '/', 'l', 'i', 'v', 'e', '_', 'a', 't', 't', 'a', 'c', 'h',
   'e', 'd']

/-- The string constant `"thread/live_detached"`. -/
def liveDetachedStr : JSString :=
  ['t', 'h', 'r', 'e', 'a', 'd', '/', 'l', 'i', 'v', 'e', '_', 'd', 'e', 't', 'a', 'c', 'h',
   'e', 'd']

/-- The string constant `"thread/live_heartbeat"`. -/
def liveHeartbeatStr : JSString :=
  ['t', 'h', 'r', 'e', 'a', 'd', '/', 'l', 'i', 'v', 'e', '_', 'h', 'e', 'a', 'r', 't', 'b',
   'e', 'a', 't']

/-- The string constant `"thread/tokenUsage/updated"`. -/
def tokenUsageUpdatedStr : JSString :=
  ['t', 'h', 'r', 'e', 'a', 'd', '/', 't', 'o', 'k', 'e', 'n', 'U', 's', 'a', 'g', 'e', '/',
   'u', 'p', 'd', 'a', 't', 'e', 'd']

/-- The string constant `"item/"`. -/
def itemSlashStr : JSString := ['i', 't', 'e', 'm', '/']

/-- The string constant `"turn/"`. -/
def turnSlashStr : JSString := ['t', 'u', 'r', 'n', '/']

/-- `SELF_DETACH_IGNORE_WINDOW_MS = 10_000`. -/
def SELF_DETACH_IGNORE_WINDOW_MS : Nat := 10000

/-- `` keyForThread(workspaceId, threadId) = `${workspaceId}:${threadId}` ``. -/
def keyForThread (workspaceId threadId : JSString) : JSString :=
  workspaceId ++ [':'] ++ threadId

/-- `String.prototype.indexOf` specialised to a single-character needle;
`none` models the JS return value `-1`. -/
def indexOfChar (c : Char) : JSString → Option Nat
  | [] => none
  | x :: xs => if x = c then some 0 else (indexOfChar c xs).map (· + 1)

/-- `splitKey(key)`: splits at the first `':'`; returns `null` when the
separator is at position `<= 0` or at `>= key.length - 1`. -/
def splitKey (key : JSString) : Option (JSString × JSString) :=
  match indexOfChar ':' key with
  | none => none
  | some separator =>
    if separator = 0 ∨ key.length - 1 ≤ separator then none
    else some (key.take separator, key.drop (separator + 1))

/-- `method.startsWith(p)` on the character-list model of JS strings. -/
def startsWithJS (p s : JSString) : Bool :=
  match p, s with
  | [], _ => true
  | _ :: _, [] => false
  | c :: p', x :: s' => c == x && startsWithJS p' s'

/-- `isThreadActivityMethod(method)`. -/
def isThreadActivityMethod (method : JSString) : Bool :=
  startsWithJS itemSlashStr method ||
  startsWithJS turnSlashStr method ||
  method == errorStr ||
  method == tokenUsageUpdatedStr

/-- `String.prototype.trim`: strips leading and trailing whitespace. -/
def jsTrim (s : JSString) : JSString :=
  ((s.dropWhile Char.isWhitespace).reverse.dropWhile Char.isWhitespace).reverse

/-- The fields of `params.turn` read by `extractThreadId`; a missing field
is `none`. -/
structure TurnParams where
  threadId : Option JSString
  thread_id : Option JSString
deriving DecidableEq

/-- The fields of an event's `params` bag read by `extractThreadId`;
`turn := none` models an absent (or non-object) `params.turn`. -/
structure EventParams where
  turn : Option TurnParams
  threadId : Option JSString
  thread_id : Option JSString
deriving DecidableEq

/-- `extractThreadId(method, params)`: for the turn-scoped methods and
`"error"`, prefer the id nested in `params.turn` (`threadId ?? thread_id`,
trimmed); otherwise, or when that is blank, fall back to the top-level
`params.threadId ?? params.thread_id`; blank means no id (`null`). -/
def extractThreadId (method : JSString) (params : EventParams) : Option JSString :=
  let direct := jsTrim ((params.threadId <|> params.thread_id).getD [])
  let fallback := if direct.length > 0 then some direct else none
  if method = turnStartedStr ∨ method = turnCompletedStr ∨ method = errorStr then
    let turn := params.turn.getD ⟨none, none⟩
    let fromTurn := jsTrim ((turn.threadId <|> turn.thread_id).getD [])
    if fromTurn ≠ [] then some fromTurn else fallback
  else fallback

/-- The two fields of `WorkspaceInfo` the coordinator reads (`id`,
`connected`); the remaining fields of the source type are never consulted
by this hook. -/
structure WorkspaceInfo where
  id : JSString
  connected : Bool
deriving DecidableEq

/-- `RemoteThreadConnectionState = "live" | "polling" | "disconnected"`. -/
inductive RemoteThreadConnectionState
  | live
  | polling
  | disconnected
deriving DecidableEq

/-- JS truthiness of `workspace?.connected` (also `?? false`). -/
def wsConnected (w : Option WorkspaceInfo) : Bool :=
  (w.map (·.connected)).getD false

/-- The `useState` initializer of `connectionState` (the function run once
at hook creation, before any effect). -/
def initialConnectionState (backendMode : JSString) (activeWorkspace : Option WorkspaceInfo) :
    RemoteThreadConnectionState :=
  if backendMode ≠ remoteStr then
    if wsConnected activeWorkspace then .live else .disconnected
  else if ¬ wsConnected activeWorkspace then .disconnected
  else .polling

/-- An entry of `inFlightReconnectRef`: `{ key, sequence, promise }`.  The
promise is identified by a number (promise identity is reference identity
in JS; the model allocates fresh identifiers). -/
structure InFlight where
  key : JSString
  sequence : Nat
  promise : Nat
deriving DecidableEq

/-- The coordinator's mutable state: the hook's refs (and the prop values
the refs mirror).  `hasReconnectWorkspace` records whether the optional
`reconnectWorkspace` collaborator was supplied; `nextPromiseId` is the
model's supply of fresh promise identities. -/
structure Coord where
  backendMode : JSString
  activeWorkspace : Option WorkspaceInfo
  activeThreadId : Option JSString
  connectionState : RemoteThreadConnectionState
  activeSubscriptionKey : Option JSString
  desiredSubscriptionKey : Option JSString
  ignoreDetachedEventsUntil : List (JSString × Nat)
  inFlightReconnect : Option InFlight
  reconnectSequence : Nat
  nextPromiseId : Nat
  hasReconnectWorkspace : Bool
deriving DecidableEq

/-- `Map.prototype.get(k)` on the association-list model of
`ignoreDetachedEventsUntilRef.current`. -/
def mapGet (m : List (JSString × Nat)) (k : JSString) : Option Nat :=
  (m.find? (fun p => p.1 == k)).map (·.2)

/-- `Map.prototype.set(k, v)` (replaces any existing entry for `k`). -/
def mapSet (m : List (JSString × Nat)) (k : JSString) (v : Nat) : List (JSString × Nat) :=
  (k, v) :: m.filter (fun p => p.1 != k)

/-- `Map.prototype.delete(k)`. -/
def mapDelete (m : List (JSString × Nat)) (k : JSString) : List (JSString × Nat) :=
  m.filter (fun p => p.1 != k)

/-- `setState(next)`: writes the connection state, skipping the React
update when the value is unchanged (observationally the same state). -/
def setState (s : Coord) (next : RemoteThreadConnectionState) : Coord :=
  if s.connectionState = next then s else { s with connectionState := next }

/-- `reconcileDisconnectedState()`: the resting state absent live
confirmation, from the current backend mode and workspace connectivity. -/
def reconcileDisconnectedState (s : Coord) : Coord :=
  if s.backendMode ≠ remoteStr then
    setState s (if wsConnected s.activeWorkspace then .live else .disconnected)
  else if ¬ wsConnected s.activeWorkspace then setState s .disconnected
  else setState s .polling

/-- A call issued to one of the opaque external collaborators. -/
inductive ExtCall
  | subscribeCall (workspaceId threadId : JSString)
  | unsubscribeCall (workspaceId threadId : JSString)
  | refreshThreadCall (workspaceId threadId : JSString)
  | reconnectWorkspaceCall (workspaceId : JSString)
deriving DecidableEq

/-- `unsubscribeByKey(key)`: parse the key and issue a best-effort
unsubscribe; a key that does not parse issues nothing.  (The awaited
unsubscribe swallows its errors, so only the issued call matters.) -/
def unsubscribeByKeyCalls (key : JSString) : List ExtCall :=
  match splitKey key with
  | none => []
  | some (parsed₁, parsed₂) => [.unsubscribeCall parsed₁ parsed₂]

/-- The resume points of the `reconnectLive` attempt body: one constructor
per `await` whose continuation the attempt can be suspended at, plus
`started` for the synchronous prefix of the async IIFE. -/
inductive AttemptPC
  | started
  | afterSessionReconnect
  | afterRefresh
  | afterUnsubOld
  | afterSubscribe
  | afterCleanupUnsub
deriving DecidableEq

/-- A suspended reconnection attempt: the values the async closure
captured (`targetKey`, `sequence`, the call arguments, the options, its
own promise) together with the program counter of the next resume. -/
structure Attempt where
  workspaceId : JSString
  threadId : JSString
  targetKey : JSString
  sequence : Nat
  runResume : Option Bool
  promise : Nat
  pc : AttemptPC
deriving DecidableEq

/-- Whether the awaited external call fulfilled (`ok`) or rejected
(`err`). -/
inductive ResumeOutcome
  | ok
  | err
deriving DecidableEq

/-- Result of running one segment of an attempt: suspended at the next
`await` (recording the call just issued) or completed with a Boolean. -/
inductive AttemptResult
  | suspended (a : Attempt) (call : ExtCall)
  | completed (result : Bool)
deriving DecidableEq

/-- The `.finally` handler registered on the attempt's promise: clear
`inFlightReconnectRef` when it still points at this very promise. -/
def finallyCleanup (s : Coord) (promise : Nat) : Coord :=
  if (s.inFlightReconnect.map (·.promise)) = some promise then
    { s with inFlightReconnect := none }
  else s

/-- Complete an attempt: its promise settles, so the `.finally` cleanup
runs. -/
def completeAttempt (s : Coord) (a : Attempt) (result : Bool) : Coord × AttemptResult :=
  (finallyCleanup s a.promise, .completed result)

/-- The catch handler of the attempt body: on a thrown error, reconcile
the connection state if the attempt is still current, and resolve
`false`. -/
def attemptCatch (s : Coord) (a : Attempt) : Coord × AttemptResult :=
  let s := if a.sequence = s.reconnectSequence then reconcileDisconnectedState s else s
  completeAttempt s a false

/-- Attempt body from the self-dedup check (the part that, when the target
key is already the active subscription, records a self-detach-suppression
entry and unsubscribes before re-attaching) down to the `subscribe`
call. -/
def attemptFromDedup (now : Nat) (s : Coord) (a : Attempt) : Coord × AttemptResult :=
  if s.activeSubscriptionKey = some a.targetKey then
    let m := mapSet s.ignoreDetachedEventsUntil a.targetKey (now + SELF_DETACH_IGNORE_WINDOW_MS)
    let s := { s with ignoreDetachedEventsUntil := m }
    (s, .suspended { a with pc := .afterUnsubOld }
      (.unsubscribeCall a.workspaceId a.threadId))
  else
    (s, .suspended { a with pc := .afterSubscribe }
      (.subscribeCall a.workspaceId a.threadId))

/-- Attempt body from the staleness check that follows the resource
refresh. -/
def attemptFromSeqAfterRefresh (now : Nat) (s : Coord) (a : Attempt) : Coord × AttemptResult :=
  if a.sequence ≠ s.reconnectSequence then completeAttempt s a false
  else attemptFromDedup now s a

/-- Attempt body from the staleness check that follows the optional
session reconnect: abort when stale, then run the resource refresh unless
`options?.runResume !== false` fails, then continue. -/
def attemptFromSeqAfterSession (now : Nat) (s : Coord) (a : Attempt) : Coord × AttemptResult :=
  if a.sequence ≠ s.reconnectSequence then completeAttempt s a false
  else if a.runResume ≠ some false then
    (s, .suspended { a with pc := .afterRefresh }
      (.refreshThreadCall a.workspaceId a.threadId))
  else attemptFromSeqAfterRefresh now s a

/-- The synchronous prefix of the attempt's `try` block: re-assert the
desired key, and issue the optional session reconnect when the workspace
entry is present, not connected, matches the requested workspace, and a
`reconnectWorkspace` collaborator exists. -/
def attemptStartSegment (now : Nat) (s : Coord) (a : Attempt) : Coord × AttemptResult :=
  let s := { s with desiredSubscriptionKey := some a.targetKey }
  match s.activeWorkspace with
  | some workspaceEntry =>
    if ¬ workspaceEntry.connected ∧ s.hasReconnectWorkspace ∧
        workspaceEntry.id = a.workspaceId then
      (s, .suspended { a with pc := .afterSessionReconnect }
        (.reconnectWorkspaceCall workspaceEntry.id))
    else attemptFromSeqAfterSession now s a
  | none => attemptFromSeqAfterSession now s a

/-- Attempt body from the resolution of the `subscribe` call: when stale,
clean up the fresh subscription (only if the desired key moved away) and
resolve `false`; otherwise record the target key as actively subscribed,
set `polling`, and resolve `true`. -/
def attemptFromSubscribed (s : Coord) (a : Attempt) : Coord × AttemptResult :=
  if a.sequence ≠ s.reconnectSequence then
    if s.desiredSubscriptionKey ≠ some a.targetKey then
      (s, .suspended { a with pc := .afterCleanupUnsub }
        (.unsubscribeCall a.workspaceId a.threadId))
    else completeAttempt s a false
  else
    let s := { s with activeSubscriptionKey := some a.targetKey }
    let s := setState s .polling
    completeAttempt s a true

/-- Resume a suspended attempt with the outcome of the call it was
awaiting and run it to its next suspension or completion.  Unsubscribe
awaits swallow rejection (`.catch(() => {})`), so their outcome is
ignored; rejections of the other awaited calls land in the `catch`
handler. -/
def attemptRun (now : Nat) (s : Coord) (a : Attempt) (outcome : ResumeOutcome) :
    Coord × AttemptResult :=
  match a.pc, outcome with
  | .started, _ => attemptStartSegment now s a
  | .afterSessionReconnect, .ok => attemptFromSeqAfterSession now s a
  | .afterSessionReconnect, .err => attemptCatch s a
  | .afterRefresh, .ok => attemptFromSeqAfterRefresh now s a
  | .afterRefresh, .err => attemptCatch s a
  | .afterUnsubOld, _ =>
    let s := { s with activeSubscriptionKey := none }
    (s, .suspended { a with pc := .afterSubscribe }
      (.subscribeCall a.workspaceId a.threadId))
  | .afterSubscribe, .ok => attemptFromSubscribed s a
  | .afterSubscribe, .err => attemptCatch s a
  | .afterCleanupUnsub, _ => completeAttempt s a false

/-- Result of a synchronous `reconnectLive` call: an immediate `false`
(the rejection path), the existing in-flight promise (coalescing), or a
newly started attempt (identified by its promise, with the state it
suspended in). -/
inductive ReconnectResult
  | rejectedFalse
  | coalesced (promise : Nat)
  | started (promise : Nat) (r : AttemptResult)
deriving DecidableEq

/-- Start a fresh attempt (the async IIFE): increment the sequence, set
the provisional state, run the body to its first `await`, then record the
in-flight entry `{ key, sequence, promise }` for coalescing. -/
def startAttempt (now : Nat) (s : Coord) (workspaceId threadId targetKey : JSString)
    (runResume : Option Bool) : Coord × List ExtCall × ReconnectResult :=
  let sequence := s.reconnectSequence + 1
  let s := { s with reconnectSequence := sequence }
  let workspaceAtStart := s.activeWorkspace
  let s := setState s (if wsConnected workspaceAtStart then .polling else .disconnected)
  let promise := s.nextPromiseId
  let s := { s with nextPromiseId := promise + 1 }
  let a : Attempt := ⟨workspaceId, threadId, targetKey, sequence, runResume, promise, .started⟩
  let (s, r) := attemptStartSegment now s a
  let s := { s with inFlightReconnect := some ⟨targetKey, s.reconnectSequence, promise⟩ }
  match r with
  | .suspended a' call => (s, [call], .started promise (.suspended a' call))
  | .completed b => (finallyCleanup s promise, [], .started promise (.completed b))

/-- The synchronous part of `reconnectLive(workspaceId, threadId,
options)`: rejection checks, setting the desired key, coalescing onto a
same-key in-flight attempt whose recorded sequence is still current,
discarding a stale same-key entry, and otherwise starting a fresh
attempt. -/
def reconnectLive (now : Nat) (s : Coord) (workspaceId threadId : JSString)
    (runResume : Option Bool) : Coord × List ExtCall × ReconnectResult :=
  if s.backendMode ≠ remoteStr ∨ workspaceId = [] ∨ threadId = [] ∨
      s.activeWorkspace = none then
    (reconcileDisconnectedState s, [], .rejectedFalse)
  else
    let targetKey := keyForThread workspaceId threadId
    let s := { s with desiredSubscriptionKey := some targetKey }
    match s.inFlightReconnect with
    | some inFlight =>
      if inFlight.key = targetKey then
        if inFlight.sequence = s.reconnectSequence then
          (s, [], .coalesced inFlight.promise)
        else
          startAttempt now { s with inFlightReconnect := none }
            workspaceId threadId targetKey runResume
      else startAttempt now s workspaceId threadId targetKey runResume
    | none => startAttempt now s workspaceId threadId targetKey runResume

/-- Run a started attempt to completion with every awaited call
fulfilling and no interleaved trigger, collecting the calls issued by the
resumed segments (`fuel` bounds the number of resumes). -/
def resumeToEnd (now : Nat) : Nat → Coord → Attempt → Coord × List ExtCall × Option Bool
  | 0, s, _ => (s, [], none)
  | fuel + 1, s, a =>
    match attemptRun now s a .ok with
    | (s', .completed b) => (s', [], some b)
    | (s', .suspended a' call) =>
      let (s'', calls, res) := resumeToEnd now fuel s' a'
      (s'', call :: calls, res)

/-- `handleBlur` (also run when visibility becomes hidden): advance the
sequence, clear the desired key, and — only when an active subscription
key exists — clear it, issue a best-effort unsubscribe and reconcile the
connection state. -/
def handleBlur (s : Coord) : Coord × List ExtCall :=
  let s := { s with reconnectSequence := s.reconnectSequence + 1,
                    desiredSubscriptionKey := none }
  match s.activeSubscriptionKey with
  | none => (s, [])
  | some currentKey =>
    let s := { s with activeSubscriptionKey := none }
    (reconcileDisconnectedState s, unsubscribeByKeyCalls currentKey)

/-- An app-server event as seen by the hook's handler: the originating
workspace id, the raw method (an empty string models a missing method)
and the parameter bag. -/
structure AppServerEvent where
  workspace_id : JSString
  method : JSString
  params : EventParams
deriving DecidableEq

/-- A `reconnectLive` invocation requested by the event handler (the
handler fires them as its final, fire-and-forget step). -/
structure ReconnectTrigger where
  workspaceId : JSString
  threadId : JSString
  runResume : Bool
deriving DecidableEq

/-- The `subscribeAppServerEvents` handler: route an event by method,
updating the coordinator state and returning the `reconnectLive`
invocations it fires.  `now` is `Date.now()`; `visible` and `focused` are
the document-visibility and window-focus queries. -/
def handleAppServerEvent (now : Nat) (visible focused : Bool) (s : Coord)
    (e : AppServerEvent) : Coord × List ReconnectTrigger :=
  if e.method = [] then (s, [])
  else
    match s.activeWorkspace, s.activeThreadId with
    | some activeWorkspaceEntry, some selectedThreadId =>
      let activeWorkspaceId := activeWorkspaceEntry.id
      if e.workspace_id ≠ activeWorkspaceId then (s, [])
      else if e.method = codexConnectedStr ∧ visible then
        (s, [⟨activeWorkspaceId, selectedThreadId, false⟩])
      else if e.method = liveAttachedStr then
        if extractThreadId e.method e.params = some selectedThreadId then
          let s := { s with activeSubscriptionKey :=
                        some (keyForThread activeWorkspaceId selectedThreadId) }
          (setState s .polling, [])
        else (s, [])
      else if e.method = liveDetachedStr then
        if extractThreadId e.method e.params = some selectedThreadId then
          let threadKey := keyForThread activeWorkspaceId selectedThreadId
          let ignoreDetachedUntil := (mapGet s.ignoreDetachedEventsUntil threadKey).getD 0
          if 0 < ignoreDetachedUntil ∧ now ≤ ignoreDetachedUntil then
            ({ s with ignoreDetachedEventsUntil :=
                  mapDelete s.ignoreDetachedEventsUntil threadKey }, [])
          else
            let s :=
              if 0 < ignoreDetachedUntil then
                { s with ignoreDetachedEventsUntil :=
                    mapDelete s.ignoreDetachedEventsUntil threadKey }
              else s
            let s := { s with activeSubscriptionKey := none }
            let s := reconcileDisconnectedState s
            if visible ∧ focused then
              (s, [⟨activeWorkspaceId, selectedThreadId, true⟩])
            else (s, [])
        else (s, [])
      else if e.method = liveHeartbeatStr then
        if extractThreadId e.method e.params = some selectedThreadId then
          (setState s .live, [])
        else (s, [])
      else if isThreadActivityMethod e.method then
        if extractThreadId e.method e.params = some selectedThreadId then
          (setState s .live, [])
        else (s, [])
      else (s, [])
    | _, _ => (s, [])

/-- `reconnectActiveThread()` (used by the focus and visibility-gained
handlers): call `reconnectLive` for the current workspace/thread with
`runResume: true` when both ids are present and non-empty. -/
def reconnectActiveThread (now : Nat) (s : Coord) :
    Coord × List ExtCall × Option ReconnectResult :=
  match s.activeWorkspace, s.activeThreadId with
  | some ws, some tid =>
    if ws.id ≠ [] ∧ tid ≠ [] then
      let (s', calls, r) := reconnectLive now s ws.id tid (some true)
      (s', calls, some r)
    else (s, [], none)
  | _, _ => (s, [], none)

/-- The selection/mode-change effect: recompute the desired key, drop a
previous active key that no longer matches (best-effort unsubscribe), and
either reconcile (nothing desired, hidden, or unparsable key), no-op
(already satisfied), or reconnect with `runResume: true`. -/
def selectionEffect (now : Nat) (visible : Bool) (s : Coord) :
    Coord × List ExtCall × Option ReconnectResult :=
  let activeWorkspaceId := match s.activeWorkspace with | some ws => ws.id | none => []
  let nextKey :=
    if s.backendMode = remoteStr ∧ activeWorkspaceId ≠ [] ∧ (s.activeThreadId.getD []) ≠ []
    then some (keyForThread activeWorkspaceId (s.activeThreadId.getD [])) else none
  let s := { s with desiredSubscriptionKey := nextKey }
  let previousKey := s.activeSubscriptionKey
  let (s, calls) :=
    match previousKey with
    | some pk =>
      if nextKey ≠ some pk then
        ({ s with activeSubscriptionKey := none }, unsubscribeByKeyCalls pk)
      else (s, [])
    | none => (s, [])
  match nextKey with
  | none => (reconcileDisconnectedState s, calls, none)
  | some nk =>
    if ¬ visible then (reconcileDisconnectedState s, calls, none)
    else
      match splitKey nk with
      | none => (reconcileDisconnectedState s, calls, none)
      | some (parsed₁, parsed₂) =>
        if s.activeSubscriptionKey = some nk ∧ s.connectionState ≠ .disconnected ∧
            wsConnected s.activeWorkspace then
          (s, calls, none)
        else
          let (s', calls', r) := reconnectLive now s parsed₁ parsed₂ (some true)
          (s', calls ++ calls', some r)

/-- The effect-cleanup of the hook (coordinator teardown): clear the
desired key and the self-detach map, and drop any active subscription with
a best-effort unsubscribe. -/
def teardownCleanup (s : Coord) : Coord × List ExtCall :=
  let s := { s with desiredSubscriptionKey := none, ignoreDetachedEventsUntil := [] }
  match s.activeSubscriptionKey with
  | none => (s, [])
  | some currentKey =>
    ({ s with activeSubscriptionKey := none }, unsubscribeByKeyCalls currentKey)

/-- Number of `subscribe(workspaceId, threadId)` calls in a trace. -/
def countSubscribeFor (workspaceId threadId : JSString) : List ExtCall → Nat
  | [] => 0
  | .subscribeCall w' t' :: rest =>
    (if w' = workspaceId ∧ t' = threadId then 1 else 0) +
      countSubscribeFor workspaceId threadId rest
  | _ :: rest => countSubscribeFor workspaceId threadId rest

/-- Number of `refreshThread(workspaceId, threadId)` calls in a trace. -/
def countRefreshFor (workspaceId threadId : JSString) : List ExtCall → Nat
  | [] => 0
  | .refreshThreadCall w' t' :: rest =>
    (if w' = workspaceId ∧ t' = threadId then 1 else 0) +
      countRefreshFor workspaceId threadId rest
  | _ :: rest => countRefreshFor workspaceId threadId rest

/-- Number of `unsubscribe(workspaceId, threadId)` calls in a trace. -/
def countUnsubscribeFor (workspaceId threadId : JSString) : List ExtCall → Nat
  | [] => 0
  | .unsubscribeCall w' t' :: rest =>
    (if w' = workspaceId ∧ t' = threadId then 1 else 0) +
      countUnsubscribeFor workspaceId threadId rest
  | _ :: rest => countUnsubscribeFor workspaceId threadId rest

/-- One coordinator operation, for stating whole-instance invariants:
every way the hook's state can change. -/
inductive CoordOp
  | reconnectCall (now : Nat) (workspaceId threadId : JSString) (runResume : Option Bool)
  | blurEvent
  | focusEvent (now : Nat) (visible : Bool)
  | visibilityEvent (now : Nat) (visible : Bool)
  | selectionChange (now : Nat) (visible : Bool)
  | appEvent (now : Nat) (visible focused : Bool) (e : AppServerEvent)
  | resumeTask (now : Nat) (a : Attempt) (outcome : ResumeOutcome)
  | teardown

/-- Apply one of the handler's fire-and-forget `reconnectLive`
invocations to the state. -/
def applyTrigger (now : Nat) (s : Coord) (tr : ReconnectTrigger) : Coord :=
  (reconnectLive now s tr.workspaceId tr.threadId (some tr.runResume)).1

/-- The state transition of one coordinator operation. -/
def stepCoord (s : Coord) : CoordOp → Coord
  | .reconnectCall now w t rr => (reconnectLive now s w t rr).1
  | .blurEvent => (handleBlur s).1
  | .focusEvent now visible => if visible then (reconnectActiveThread now s).1 else s
  | .visibilityEvent now visible =>
    if visible then (reconnectActiveThread now s).1 else (handleBlur s).1
  | .selectionChange now visible => (selectionEffect now visible s).1
  | .appEvent now visible focused e =>
    let (s', trs) := handleAppServerEvent now visible focused s e
    trs.foldl (applyTrigger now) s'
  | .resumeTask now a outcome => (attemptRun now s a outcome).1
  | .teardown => (teardownCleanup s).1

/-! ## Helper lemmas -/

/-- `setState` always leaves exactly the requested connection state (the
dedupe branch is observationally identity). -/
theorem setState_eq (s : Coord) (c : RemoteThreadConnectionState) :
    setState s c = { s with connectionState := c } := by
  cases s
  unfold setState
  split <;> simp_all

/-- `reconcileDisconnectedState` writes exactly the value the `useState`
initializer computes from the same mode and workspace, touching nothing
else. -/
theorem reconcileDisconnectedState_eq (s : Coord) :
    reconcileDisconnectedState s =
      { s with connectionState := initialConnectionState s.backendMode s.activeWorkspace } := by
  unfold reconcileDisconnectedState initialConnectionState
  split_ifs <;> simp_all [setState_eq]

/-- Taking the length of the left summand of an append returns it. -/
theorem take_length_append (w r : JSString) : (w ++ r).take w.length = w := by
  induction w with
  | nil => simp
  | cons x xs ih => simp [ih]

/-- Dropping one past the left summand of `w ++ c :: r` returns `r`. -/
theorem drop_length_succ_append (w : JSString) (c : Char) (r : JSString) :
    (w ++ c :: r).drop (w.length + 1) = r := by
  induction w with
  | nil => simp
  | cons x xs ih => simp [ih]

/-- The first occurrence of `c` in `w ++ c :: r` is at `w.length` when `w`
does not contain `c`. -/
theorem indexOfChar_append_cons_self (c : Char) (w r : JSString) (hw : c ∉ w) :
    indexOfChar c (w ++ c :: r) = some w.length := by
  induction w with
  | nil => simp [indexOfChar]
  | cons x xs ih =>
    have hx : ¬ x = c := fun h => hw (by simp [h])
    have hxs : c ∉ xs := fun h => hw (List.mem_cons_of_mem _ h)
    simp [indexOfChar, hx, ih hxs]

/-! ## C9 — the `useState` initializer computes the resting state -/

/-- C9: at hook creation the `useState` initializer computes, from the
backend mode and the workspace connectivity, exactly the connection state
that `reconcileDisconnectedState` would reconcile to — `live` off remote
mode with a connected workspace, `disconnected` without a connected
workspace, `polling` in remote mode with a connected workspace. -/
theorem initialState_matches_reconcile (s : Coord) :
    (reconcileDisconnectedState s).connectionState =
      initialConnectionState s.backendMode s.activeWorkspace := by
  rw [reconcileDisconnectedState_eq]

/-! ## C7 — key round-trip -/

/-- C7 (corrected): `splitKey` inverts `keyForThread` for every non-empty
`threadId` and every non-empty `workspaceId` that contains no `':'`; the
original claim's quantification over all non-empty components fails
because `splitKey` splits at the first colon. -/
theorem splitKey_keyForThread (workspaceId threadId : JSString)
    (hw : workspaceId ≠ []) (ht : threadId ≠ []) (hc : ':' ∉ workspaceId) :
    splitKey (keyForThread workspaceId threadId) = some (workspaceId, threadId) := by
  have hkey : keyForThread workspaceId threadId = workspaceId ++ ':' :: threadId := by
    simp [keyForThread]
  rw [hkey]
  unfold splitKey
  rw [indexOfChar_append_cons_self ':' workspaceId threadId hc]
  have hlw : workspaceId.length ≠ 0 := by simpa using hw
  have hlt : 0 < threadId.length := List.length_pos.mpr ht
  have hcond : ¬ (workspaceId.length = 0 ∨
      (workspaceId ++ ':' :: threadId).length - 1 ≤ workspaceId.length) := by
    simp only [List.length_append, List.length_cons]
    omega
  show (if workspaceId.length = 0 ∨
        (workspaceId ++ ':' :: threadId).length - 1 ≤ workspaceId.length then none
      else some ((workspaceId ++ ':' :: threadId).take workspaceId.length,
        (workspaceId ++ ':' :: threadId).drop (workspaceId.length + 1))) =
    some (workspaceId, threadId)
  rw [if_neg hcond, take_length_append, drop_length_succ_append]

/-- Witness for C7's theorem at a concrete key. -/
theorem splitKey_keyForThread_witness :
    splitKey (keyForThread ['w', 's'] ['t', ':', '1']) = some (['w', 's'], ['t', ':', '1']) :=
  splitKey_keyForThread ['w', 's'] ['t', ':', '1'] (by decide) (by decide) (by decide)

/-- Counterexample to C7 as stated: with the non-empty components
`workspaceId = "a:b"` and `threadId = "c"`, parsing does not invert
formatting — the split happens at the first colon. -/
theorem splitKey_keyForThread_cex :
    (['a', ':', 'b'] : JSString) ≠ [] ∧ (['c'] : JSString) ≠ [] ∧
      splitKey (keyForThread ['a', ':', 'b'] ['c']) ≠ some (['a', ':', 'b'], ['c']) := by
  decide

/-! ## C10 — thread-id extraction fallback -/

/-- C10: for `turn/started`, `turn/completed` and `error`,
`extractThreadId` first reads the id nested in `params.turn`
(`threadId ?? thread_id`), returning it when non-blank after trimming and
otherwise falling back to the top-level `params.threadId ?? thread_id`;
and for every method, an id blank or missing in both places yields
`none`. -/
theorem extractThreadId_spec (method : JSString) (params : EventParams) :
    ((method = turnStartedStr ∨ method = turnCompletedStr ∨ method = errorStr) →
      jsTrim (((params.turn.getD ⟨none, none⟩).threadId <|>
          (params.turn.getD ⟨none, none⟩).thread_id).getD []) ≠ [] →
      extractThreadId method params =
        some (jsTrim (((params.turn.getD ⟨none, none⟩).threadId <|>
          (params.turn.getD ⟨none, none⟩).thread_id).getD []))) ∧
    ((method = turnStartedStr ∨ method = turnCompletedStr ∨ method = errorStr) →
      jsTrim (((params.turn.getD ⟨none, none⟩).threadId <|>
          (params.turn.getD ⟨none, none⟩).thread_id).getD []) = [] →
      extractThreadId method params =
        (if jsTrim ((params.threadId <|> params.thread_id).getD []) = [] then none
         else some (jsTrim ((params.threadId <|> params.thread_id).getD [])))) ∧
    (jsTrim (((params.turn.getD ⟨none, none⟩).threadId <|>
        (params.turn.getD ⟨none, none⟩).thread_id).getD []) = [] →
      jsTrim ((params.threadId <|> params.thread_id).getD []) = [] →
      extractThreadId method params = none) := by
  have hlen : ∀ l : JSString, (0 < l.length) ↔ l ≠ [] := fun l => by
    cases l <;> simp
  refine ⟨?_, ?_, ?_⟩
  · intro hm hturn
    simp only [extractThreadId, if_pos hm, if_pos hturn]
  · intro hm hturn
    simp only [extractThreadId, if_pos hm, hturn, ne_eq, not_true_eq_false, if_false,
      if_neg (by simp : ¬ ([] : JSString) ≠ [])]
    by_cases hd : jsTrim ((params.threadId <|> params.thread_id).getD []) = []
    · simp [hd]
    · simp [hd, (hlen _).mpr hd]
  · intro hturn hdirect
    by_cases hm : method = turnStartedStr ∨ method = turnCompletedStr ∨ method = errorStr
    · simp [extractThreadId, if_pos hm, hturn, hdirect]
    · simp [extractThreadId, if_neg hm, hdirect]

/-- Witness for C10's theorem: a `turn/started` event with a nested
`" x "` id extracts the trimmed `"x"`. -/
theorem extractThreadId_spec_witness :
    extractThreadId turnStartedStr ⟨some ⟨some [' ', 'x', ' '], none⟩, none, none⟩ =
      some ['x'] :=
  (extractThreadId_spec turnStartedStr
      ⟨some ⟨some [' ', 'x', ' '], none⟩, none, none⟩).1 (Or.inl rfl) (by decide)

/-! ## C6 — blur handling -/

/-- Counterexample to C6 as stated: on a blur with no ActiveKey the
handler returns before reconciling, leaving a `live` state that the
reconciliation helper would have moved to `polling`. -/
theorem handleBlur_spec_cex :
    (handleBlur ⟨remoteStr, some ⟨['w'], true⟩, some ['t'],
        RemoteThreadConnectionState.live, none, some (keyForThread ['w'] ['t']),
        [], none, 5, 0, true⟩).1.connectionState = RemoteThreadConnectionState.live ∧
    (reconcileDisconnectedState (handleBlur ⟨remoteStr, some ⟨['w'], true⟩, some ['t'],
        RemoteThreadConnectionState.live, none, some (keyForThread ['w'] ['t']),
        [], none, 5, 0, true⟩).1).connectionState = RemoteThreadConnectionState.polling := by
  decide

/-- C6 (corrected): on blur/hide the sequence is incremented and the
desired key cleared; the active key is cleared with a best-effort
unsubscribe and the connection state reconciled only when an ActiveKey
existed — with no ActiveKey nothing further happens (in particular no
reconciliation). -/
theorem handleBlur_spec (s : Coord) :
    (s.activeSubscriptionKey = none →
      handleBlur s = ({ s with reconnectSequence := s.reconnectSequence + 1,
                               desiredSubscriptionKey := none }, [])) ∧
    (∀ k, s.activeSubscriptionKey = some k →
      handleBlur s =
        (reconcileDisconnectedState
          { s with reconnectSequence := s.reconnectSequence + 1,
                   desiredSubscriptionKey := none,
                   activeSubscriptionKey := none },
         unsubscribeByKeyCalls k)) := by
  constructor
  · intro h
    simp [handleBlur, h]
  · intro k h
    simp [handleBlur, h]

/-- Witness for C6's theorem: the no-ActiveKey branch at a concrete
state. -/
theorem handleBlur_spec_witness :
    handleBlur ⟨remoteStr, some ⟨['w'], true⟩, some ['t'],
        RemoteThreadConnectionState.live, none, none, [], none, 5, 0, true⟩ =
      ({ (⟨remoteStr, some ⟨['w'], true⟩, some ['t'],
            RemoteThreadConnectionState.live, none, none, [], none, 5, 0, true⟩ : Coord) with
          reconnectSequence := 6, desiredSubscriptionKey := none }, []) :=
  (handleBlur_spec _).1 rfl

/-! ## C5 — resume condition -/

/-- Counterexample to C5 as stated: a `reconnectLive` call with `options`
absent (so `runResume` absent) issues the `refreshThread` call — the code
skips the refresh only on an explicit `runResume: false`. -/
theorem reconnect_runResume_cex :
    (reconnectLive 0 ⟨remoteStr, some ⟨['w'], true⟩, some ['t'],
        RemoteThreadConnectionState.polling, none, none, [], none, 0, 0, true⟩
        ['w'] ['t'] none).2.1 = [ExtCall.refreshThreadCall ['w'] ['t']] := by
  decide

/-! ## C2 — blur cancellation-then-cleanup -/

/-- Blur advances the sequence by exactly one. -/
theorem handleBlur_reconnectSequence (s : Coord) :
    (handleBlur s).1.reconnectSequence = s.reconnectSequence + 1 := by
  unfold handleBlur
  cases h : s.activeSubscriptionKey <;> simp [h, reconcileDisconnectedState_eq]

/-- Blur clears the desired key. -/
theorem handleBlur_desired (s : Coord) :
    (handleBlur s).1.desiredSubscriptionKey = none := by
  unfold handleBlur
  cases h : s.activeSubscriptionKey <;> simp [h, reconcileDisconnectedState_eq]

/-- Blur leaves no active subscription key. -/
theorem handleBlur_activeKey (s : Coord) :
    (handleBlur s).1.activeSubscriptionKey = none := by
  unfold handleBlur
  cases h : s.activeSubscriptionKey <;> simp [h, reconcileDisconnectedState_eq]

/-- `finallyCleanup` only touches the in-flight entry. -/
theorem finallyCleanup_activeKey (s : Coord) (p : Nat) :
    (finallyCleanup s p).activeSubscriptionKey = s.activeSubscriptionKey := by
  unfold finallyCleanup
  split <;> simp

/-- C2: when a blur (or visibility-hidden) event arrives while an
attempt's `subscribe` call is pending (the attempt was current when the
blur struck), the resolution of that `subscribe` finds the sequence
advanced and the desired key cleared, so the attempt issues an
`unsubscribe` for its key; when that unsubscribe settles — whatever state
the coordinator is in by then, and whether it fulfils or rejects — the
attempt resolves `false`, and neither step writes the active key, which
the blur left at `none`. -/
theorem blur_cancels_pending_subscribe (now₂ now₃ : Nat) (s s₂ : Coord) (a : Attempt)
    (hpc : a.pc = AttemptPC.afterSubscribe)
    (hseq : a.sequence = s.reconnectSequence) :
    (handleBlur s).1.activeSubscriptionKey = none ∧
    attemptRun now₂ (handleBlur s).1 a .ok =
      ((handleBlur s).1,
        .suspended { a with pc := .afterCleanupUnsub }
          (.unsubscribeCall a.workspaceId a.threadId)) ∧
    (∀ outcome, attemptRun now₃ s₂ { a with pc := .afterCleanupUnsub } outcome =
      (finallyCleanup s₂ a.promise, .completed false)) ∧
    (finallyCleanup s₂ a.promise).activeSubscriptionKey = s₂.activeSubscriptionKey := by
  refine ⟨handleBlur_activeKey s, ?_, ?_, finallyCleanup_activeKey s₂ a.promise⟩
  · rw [show attemptRun now₂ (handleBlur s).1 a .ok =
        attemptFromSubscribed (handleBlur s).1 a by
      unfold attemptRun; rw [hpc]]
    unfold attemptFromSubscribed
    rw [if_pos (by rw [hseq, handleBlur_reconnectSequence]; omega)]
    rw [if_pos (by rw [handleBlur_desired]; simp)]
  · intro outcome
    cases outcome <;> rfl

/-- Witness for C2's theorem at a concrete pending attempt. -/
theorem blur_cancels_pending_subscribe_witness :
    (handleBlur ⟨remoteStr, some ⟨['w'], true⟩, some ['t'],
        RemoteThreadConnectionState.polling, none, some (keyForThread ['w'] ['t']),
        [], some ⟨keyForThread ['w'] ['t'], 4, 9⟩, 4, 10, true⟩).1.activeSubscriptionKey =
      none ∧
    attemptRun 0 (handleBlur ⟨remoteStr, some ⟨['w'], true⟩, some ['t'],
        RemoteThreadConnectionState.polling, none, some (keyForThread ['w'] ['t']),
        [], some ⟨keyForThread ['w'] ['t'], 4, 9⟩, 4, 10, true⟩).1
        ⟨['w'], ['t'], keyForThread ['w'] ['t'], 4, some true, 9, .afterSubscribe⟩ .ok =
      ((handleBlur ⟨remoteStr, some ⟨['w'], true⟩, some ['t'],
          RemoteThreadConnectionState.polling, none, some (keyForThread ['w'] ['t']),
          [], some ⟨keyForThread ['w'] ['t'], 4, 9⟩, 4, 10, true⟩).1,
        .suspended ⟨['w'], ['t'], keyForThread ['w'] ['t'], 4, some true, 9,
            .afterCleanupUnsub⟩
          (.unsubscribeCall ['w'] ['t'])) ∧
    (∀ outcome, attemptRun 0 ⟨remoteStr, some ⟨['w'], true⟩, some ['t'],
        RemoteThreadConnectionState.polling, none, none, [], none, 7, 10, true⟩
        ⟨['w'], ['t'], keyForThread ['w'] ['t'], 4, some true, 9, .afterCleanupUnsub⟩
        outcome =
      (finallyCleanup ⟨remoteStr, some ⟨['w'], true⟩, some ['t'],
          RemoteThreadConnectionState.polling, none, none, [], none, 7, 10, true⟩ 9,
        .completed false)) ∧
    (finallyCleanup ⟨remoteStr, some ⟨['w'], true⟩, some ['t'],
        RemoteThreadConnectionState.polling, none, none, [], none, 7, 10, true⟩
        9).activeSubscriptionKey = none :=
  blur_cancels_pending_subscribe 0 0 _ _
    ⟨['w'], ['t'], keyForThread ['w'] ['t'], 4, some true, 9, .afterSubscribe⟩ rfl rfl

/-! ## C3 — self-detach suppression -/

/-- C3: for a `thread/live_detached` event for the currently selected key
K: a SelfDetachWindow entry for K whose (positive, as every entry the code
writes is) expiry is not in the past is deleted and the event otherwise
ignored; an expired entry is deleted but does not suppress; an absent
entry does not suppress — in the two unsuppressed cases the active key is
cleared, the connection state reconciled, and a reconnect with
`runResume: true` fired exactly when the document is visible and the
window focused. -/
theorem selfDetach_suppression (now : Nat) (visible focused : Bool) (s : Coord)
    (e : AppServerEvent) (ws : WorkspaceInfo) (selTid : JSString)
    (hws : s.activeWorkspace = some ws)
    (htid : s.activeThreadId = some selTid)
    (hevw : e.workspace_id = ws.id)
    (hm : e.method = liveDetachedStr)
    (hex : extractThreadId e.method e.params = some selTid) :
    (∀ v, mapGet s.ignoreDetachedEventsUntil (keyForThread ws.id selTid) = some v →
      0 < v → now ≤ v →
      handleAppServerEvent now visible focused s e =
        ({ s with ignoreDetachedEventsUntil :=
            mapDelete s.ignoreDetachedEventsUntil (keyForThread ws.id selTid) }, [])) ∧
    (∀ v, mapGet s.ignoreDetachedEventsUntil (keyForThread ws.id selTid) = some v →
      0 < v → v < now →
      handleAppServerEvent now visible focused s e =
        (reconcileDisconnectedState
          { s with
              ignoreDetachedEventsUntil :=
                mapDelete s.ignoreDetachedEventsUntil (keyForThread ws.id selTid)
              activeSubscriptionKey := none },
         if visible ∧ focused then [⟨ws.id, selTid, true⟩] else [])) ∧
    (mapGet s.ignoreDetachedEventsUntil (keyForThread ws.id selTid) = none →
      handleAppServerEvent now visible focused s e =
        (reconcileDisconnectedState { s with activeSubscriptionKey := none },
         if visible ∧ focused then [⟨ws.id, selTid, true⟩] else [])) := by
  have d0 : ¬ liveDetachedStr = ([] : JSString) := by decide
  have d1 : ¬ liveDetachedStr = codexConnectedStr := by decide
  have d2 : ¬ liveDetachedStr = liveAttachedStr := by decide
  have hex' : extractThreadId liveDetachedStr e.params = some selTid := hm ▸ hex
  refine ⟨?_, ?_, ?_⟩
  · intro v hget h0 hnow
    simp [handleAppServerEvent, hws, htid, hevw, hm, hex', hget, h0, hnow, d0, d1, d2]
  · intro v hget h0 hnow
    have hnle : ¬ now ≤ v := Nat.not_le.mpr hnow
    simp only [handleAppServerEvent, hws, htid, hevw, hm, hex', hget, d0, d1, d2]
    simp [h0, hnle, hget]
    by_cases hvf : visible = true ∧ focused = true <;> simp [hvf, hws, htid]
  · intro hget
    simp only [handleAppServerEvent, hws, htid, hevw, hm, hex', hget, d0, d1, d2]
    simp [hget]
    by_cases hvf : visible = true ∧ focused = true <;> simp [hvf, hws, htid]

/-- Witness for C3's theorem: an unexpired entry (expiry 100 at time 50)
suppresses the detach, deleting the entry and changing nothing else. -/
theorem selfDetach_suppression_witness :
    handleAppServerEvent 50 true true
        ⟨remoteStr, some ⟨['w'], true⟩, some ['t'], RemoteThreadConnectionState.polling,
          some (keyForThread ['w'] ['t']), some (keyForThread ['w'] ['t']),
          [(keyForThread ['w'] ['t'], 100)], none, 3, 0, true⟩
        ⟨['w'], liveDetachedStr, ⟨none, some ['t'], none⟩⟩ =
      ({ (⟨remoteStr, some ⟨['w'], true⟩, some ['t'], RemoteThreadConnectionState.polling,
          some (keyForThread ['w'] ['t']), some (keyForThread ['w'] ['t']),
          [(keyForThread ['w'] ['t'], 100)], none, 3, 0, true⟩ : Coord) with
        ignoreDetachedEventsUntil :=
          mapDelete [(keyForThread ['w'] ['t'], 100)] (keyForThread ['w'] ['t']) }, []) :=
  (selfDetach_suppression 50 true true _ _ ⟨['w'], true⟩ ['t']
      rfl rfl rfl rfl (by decide)).1 100 (by decide) (by decide) (by decide)

/-! ## C4 — non-cancellation across keys -/

/-- A suspension produced between the post-refresh staleness check and the
`subscribe` call awaits a call for the attempt's own pair. -/
theorem attemptFromDedup_call (now : Nat) (s : Coord) (b : Attempt)
    (b' : Attempt) (c : ExtCall)
    (h : (attemptFromDedup now s b).2 = .suspended b' c) :
    c = .unsubscribeCall b.workspaceId b.threadId ∨
    c = .subscribeCall b.workspaceId b.threadId := by
  unfold attemptFromDedup at h
  dsimp only at h
  split at h <;> simp_all

/-- As `attemptFromDedup_call`, from the staleness check after the
refresh. -/
theorem attemptFromSeqAfterRefresh_call (now : Nat) (s : Coord) (b : Attempt)
    (b' : Attempt) (c : ExtCall)
    (h : (attemptFromSeqAfterRefresh now s b).2 = .suspended b' c) :
    c = .unsubscribeCall b.workspaceId b.threadId ∨
    c = .subscribeCall b.workspaceId b.threadId := by
  unfold attemptFromSeqAfterRefresh at h
  split at h
  · simp [completeAttempt] at h
  · exact attemptFromDedup_call now s b b' c h

/-- As `attemptFromDedup_call`, from the staleness check after the
optional session reconnect (adding the refresh call itself). -/
theorem attemptFromSeqAfterSession_call (now : Nat) (s : Coord) (b : Attempt)
    (b' : Attempt) (c : ExtCall)
    (h : (attemptFromSeqAfterSession now s b).2 = .suspended b' c) :
    c = .refreshThreadCall b.workspaceId b.threadId ∨
    c = .unsubscribeCall b.workspaceId b.threadId ∨
    c = .subscribeCall b.workspaceId b.threadId := by
  unfold attemptFromSeqAfterSession at h
  split at h
  · simp [completeAttempt] at h
  · split at h
    · simp_all
    · exact Or.inr (attemptFromSeqAfterRefresh_call now s b b' c h)

/-- Every call the synchronous prefix of a fresh attempt can be found
awaiting concerns the attempt's own pair (or its workspace session). -/
theorem attemptStartSegment_call (now : Nat) (s : Coord) (b : Attempt)
    (b' : Attempt) (c : ExtCall)
    (h : (attemptStartSegment now s b).2 = .suspended b' c) :
    (∃ wid, c = .reconnectWorkspaceCall wid) ∨
    c = .refreshThreadCall b.workspaceId b.threadId ∨
    c = .unsubscribeCall b.workspaceId b.threadId ∨
    c = .subscribeCall b.workspaceId b.threadId := by
  unfold attemptStartSegment at h
  dsimp only at h
  split at h
  · split at h
    · simp only [AttemptResult.suspended.injEq] at h
      exact Or.inl ⟨_, h.2.symm⟩
    · exact Or.inr (attemptFromSeqAfterSession_call now _ b b' c h)
  · exact Or.inr (attemptFromSeqAfterSession_call now _ b b' c h)

/-- The synchronous part of `reconnectLive(w, t, _)` never issues an
unsubscribe for a pair other than `(w, t)`. -/
theorem countUnsub_startAttempt (now : Nat) (s : Coord) (w t k : JSString) (rr : Option Bool)
    (aw atid : JSString) (h : ¬ (w = aw ∧ t = atid)) :
    countUnsubscribeFor aw atid (startAttempt now s w t k rr).2.1 = 0 := by
  unfold startAttempt
  dsimp only
  split
  next a2 c2 heq =>
    have hcall := attemptStartSegment_call now _ _ _ _ heq
    rcases hcall with ⟨wid, rfl⟩ | rfl | rfl | rfl <;> simp [countUnsubscribeFor, h]
  next b2 heq =>
    simp [countUnsubscribeFor]

/-- As `countUnsub_startAttempt`, for the whole synchronous
`reconnectLive` call. -/
theorem countUnsub_reconnectLive (now : Nat) (s : Coord) (w t : JSString) (rr : Option Bool)
    (aw atid : JSString) (h : ¬ (w = aw ∧ t = atid)) :
    countUnsubscribeFor aw atid (reconnectLive now s w t rr).2.1 = 0 := by
  unfold reconnectLive
  dsimp only
  split
  · simp [countUnsubscribeFor]
  · split
    · split
      · split
        · simp [countUnsubscribeFor]
        · exact countUnsub_startAttempt now _ w t _ rr aw atid h
      · exact countUnsub_startAttempt now _ w t _ rr aw atid h
    · exact countUnsub_startAttempt now _ w t _ rr aw atid h

/-- C4: starting a `reconnectLive` for a key different from an in-flight
attempt A's target never issues an unsubscribe for A's resource (it does
not cancel A); a superseded A still runs its own steps: resumed at its
pre-subscribe await points it quietly resolves `false`, and at its
completion step (the resolution of its `subscribe`) it tears itself down
with an unsubscribe exactly when the desired key no longer equals its
target, otherwise resolving `false` without cleanup. -/
theorem crossKey_noncancellation (now : Nat) (a : Attempt)
    (hk : a.targetKey = keyForThread a.workspaceId a.threadId) :
    (∀ (s : Coord) (w t : JSString) (rr : Option Bool),
      keyForThread w t ≠ a.targetKey →
      countUnsubscribeFor a.workspaceId a.threadId (reconnectLive now s w t rr).2.1 = 0) ∧
    (∀ (s : Coord) (outcome : ResumeOutcome),
      a.sequence ≠ s.reconnectSequence →
      ((a.pc = .afterSessionReconnect ∨ a.pc = .afterRefresh) →
        attemptRun now s a outcome = (finallyCleanup s a.promise, .completed false)) ∧
      (a.pc = .afterSubscribe →
        (s.desiredSubscriptionKey ≠ some a.targetKey →
          attemptRun now s a .ok =
            (s, .suspended { a with pc := .afterCleanupUnsub }
              (.unsubscribeCall a.workspaceId a.threadId))) ∧
        (s.desiredSubscriptionKey = some a.targetKey →
          attemptRun now s a .ok = (finallyCleanup s a.promise, .completed false)))) := by
  constructor
  · intro s w t rr hne
    have hpair : ¬ (w = a.workspaceId ∧ t = a.threadId) := by
      rintro ⟨h1, h2⟩
      exact hne (by rw [h1, h2, hk])
    exact countUnsub_reconnectLive now s w t rr a.workspaceId a.threadId hpair
  · intro s outcome hstale
    constructor
    · intro hpc
      rcases hpc with hpc | hpc <;> cases outcome <;>
        simp_all [attemptRun, attemptFromSeqAfterSession, attemptFromSeqAfterRefresh,
          attemptCatch, completeAttempt]
    · intro hpc
      constructor
      · intro hdes
        simp_all [attemptRun, attemptFromSubscribed]
      · intro hdes
        simp_all [attemptRun, attemptFromSubscribed, completeAttempt]

/-- Witness for C4's theorem at a concrete attempt. -/
theorem crossKey_noncancellation_witness :
    countUnsubscribeFor ['a'] ['1']
        (reconnectLive 0 ⟨remoteStr, some ⟨['b'], true⟩, some ['2'],
          RemoteThreadConnectionState.polling, none, none, [], none, 0, 0, true⟩
          ['b'] ['2'] (some true)).2.1 = 0 :=
  ((crossKey_noncancellation 0
      ⟨['a'], ['1'], keyForThread ['a'] ['1'], 7, some true, 3, .afterRefresh⟩ rfl).1
    ⟨remoteStr, some ⟨['b'], true⟩, some ['2'], RemoteThreadConnectionState.polling,
      none, none, [], none, 0, 0, true⟩ ['b'] ['2'] (some true) (by decide))

/-! ## C1 and C5 — coalescing and the resume condition -/

/-- Resuming a current attempt at the resolution of its `subscribe` call,
with no interference, completes it `true` with no further external
calls. -/
theorem resumeToEnd_afterSubscribe (now fuel : Nat) (s : Coord) (aw atd k : JSString)
    (rr : Option Bool) (p : Nat) :
    (resumeToEnd now (fuel + 1) s
        ⟨aw, atd, k, s.reconnectSequence, rr, p, .afterSubscribe⟩).2 =
      ([], some true) := by
  unfold resumeToEnd attemptRun attemptFromSubscribed completeAttempt
  dsimp only
  rw [if_neg (by omega : ¬ s.reconnectSequence ≠ s.reconnectSequence)]

/-- Resuming a current attempt at the resolution of its self-dedup
unsubscribe, with no interference, issues exactly the `subscribe` call and
completes `true`. -/
theorem resumeToEnd_afterUnsubOld (now fuel : Nat) (s : Coord) (aw atd k : JSString)
    (rr : Option Bool) (p : Nat) :
    (resumeToEnd now (fuel + 2) s
        ⟨aw, atd, k, s.reconnectSequence, rr, p, .afterUnsubOld⟩).2 =
      ([.subscribeCall aw atd], some true) := by
  have hsub := resumeToEnd_afterSubscribe now fuel
    { s with activeSubscriptionKey := none } aw atd k rr p
  show (resumeToEnd now (fuel + 1 + 1) s
      ⟨aw, atd, k, s.reconnectSequence, rr, p, AttemptPC.afterUnsubOld⟩).2 = _
  unfold resumeToEnd
  dsimp only [attemptRun]
  dsimp only at hsub ⊢
  rw [Prod.ext_iff] at hsub
  dsimp only at hsub
  rw [hsub.1, hsub.2]

/-- Resuming a current attempt at the resolution of its resource refresh,
with no interference, runs the self-dedup (when the target key is already
actively subscribed) and the `subscribe` call, completing `true`. -/
theorem resumeToEnd_afterRefresh (now fuel : Nat) (s : Coord) (aw atd k : JSString)
    (rr : Option Bool) (p : Nat) :
    (resumeToEnd now (fuel + 3) s
        ⟨aw, atd, k, s.reconnectSequence, rr, p, .afterRefresh⟩).2 =
      ((if s.activeSubscriptionKey = some k
        then [.unsubscribeCall aw atd, .subscribeCall aw atd]
        else [.subscribeCall aw atd]), some true) := by
  by_cases hb3 : s.activeSubscriptionKey = some k
  · have hsub := resumeToEnd_afterUnsubOld now fuel
      { s with ignoreDetachedEventsUntil :=
          mapSet s.ignoreDetachedEventsUntil k (now + SELF_DETACH_IGNORE_WINDOW_MS) }
      aw atd k rr p
    rw [if_pos hb3]
    show (resumeToEnd now (fuel + 2 + 1) s
        ⟨aw, atd, k, s.reconnectSequence, rr, p, AttemptPC.afterRefresh⟩).2 = _
    unfold resumeToEnd
    dsimp only [attemptRun]
    unfold attemptFromSeqAfterRefresh attemptFromDedup
    dsimp only
    rw [if_neg (by omega : ¬ s.reconnectSequence ≠ s.reconnectSequence), if_pos hb3]
    dsimp only
    rw [Prod.ext_iff] at hsub
    dsimp only at hsub
    rw [hsub.1, hsub.2]
  · have hsub := resumeToEnd_afterSubscribe now (fuel + 1) s aw atd k rr p
    rw [if_neg hb3]
    show (resumeToEnd now (fuel + 2 + 1) s
        ⟨aw, atd, k, s.reconnectSequence, rr, p, AttemptPC.afterRefresh⟩).2 = _
    unfold resumeToEnd
    dsimp only [attemptRun]
    unfold attemptFromSeqAfterRefresh attemptFromDedup
    dsimp only
    rw [if_neg (by omega : ¬ s.reconnectSequence ≠ s.reconnectSequence), if_neg hb3]
    dsimp only
    rw [Prod.ext_iff] at hsub
    dsimp only at hsub
    rw [hsub.1, hsub.2]

/-- Resuming a current attempt at the resolution of its session
reconnect, with no interference: the refresh call is issued iff
`runResume` is not explicitly `false`, then self-dedup and `subscribe`,
completing `true`. -/
theorem resumeToEnd_afterSession (now fuel : Nat) (s : Coord) (aw atd k : JSString)
    (rr : Option Bool) (p : Nat) :
    (resumeToEnd now (fuel + 4) s
        ⟨aw, atd, k, s.reconnectSequence, rr, p, .afterSessionReconnect⟩).2 =
      ((if rr = some false then [] else [ExtCall.refreshThreadCall aw atd]) ++
       (if s.activeSubscriptionKey = some k
        then [.unsubscribeCall aw atd, .subscribeCall aw atd]
        else [.subscribeCall aw atd]), some true) := by
  by_cases hrr : rr = some false
  · subst hrr
    rw [if_pos rfl]
    by_cases hb3 : s.activeSubscriptionKey = some k
    · have hsub := resumeToEnd_afterUnsubOld now (fuel + 1)
        { s with ignoreDetachedEventsUntil :=
            mapSet s.ignoreDetachedEventsUntil k (now + SELF_DETACH_IGNORE_WINDOW_MS) }
        aw atd k (some false) p
      rw [if_pos hb3]
      show (resumeToEnd now (fuel + 3 + 1) s
          ⟨aw, atd, k, s.reconnectSequence, some false, p, AttemptPC.afterSessionReconnect⟩).2 = _
      unfold resumeToEnd
      dsimp only [attemptRun]
      unfold attemptFromSeqAfterSession attemptFromSeqAfterRefresh attemptFromDedup
      dsimp only
      rw [if_neg (by omega : ¬ s.reconnectSequence ≠ s.reconnectSequence)]
      rw [if_neg (by simp : ¬ (some false : Option Bool) ≠ some false)]
      rw [if_neg (by omega : ¬ s.reconnectSequence ≠ s.reconnectSequence), if_pos hb3]
      dsimp only
      rw [Prod.ext_iff] at hsub
      dsimp only at hsub
      rw [hsub.1, hsub.2]
      rfl
    · have hsub := resumeToEnd_afterSubscribe now (fuel + 2) s aw atd k (some false) p
      rw [if_neg hb3]
      show (resumeToEnd now (fuel + 3 + 1) s
          ⟨aw, atd, k, s.reconnectSequence, some false, p, AttemptPC.afterSessionReconnect⟩).2 = _
      unfold resumeToEnd
      dsimp only [attemptRun]
      unfold attemptFromSeqAfterSession attemptFromSeqAfterRefresh attemptFromDedup
      dsimp only
      rw [if_neg (by omega : ¬ s.reconnectSequence ≠ s.reconnectSequence)]
      rw [if_neg (by simp : ¬ (some false : Option Bool) ≠ some false)]
      rw [if_neg (by omega : ¬ s.reconnectSequence ≠ s.reconnectSequence), if_neg hb3]
      dsimp only
      rw [Prod.ext_iff] at hsub
      dsimp only at hsub
      rw [hsub.1, hsub.2]
      rfl
  · have hsub := resumeToEnd_afterRefresh now fuel s aw atd k rr p
    rw [if_neg hrr]
    show (resumeToEnd now (fuel + 3 + 1) s
        ⟨aw, atd, k, s.reconnectSequence, rr, p, AttemptPC.afterSessionReconnect⟩).2 = _
    unfold resumeToEnd
    dsimp only [attemptRun]
    unfold attemptFromSeqAfterSession
    dsimp only
    rw [if_neg (by omega : ¬ s.reconnectSequence ≠ s.reconnectSequence), if_pos hrr]
    dsimp only
    rw [Prod.ext_iff] at hsub
    dsimp only at hsub
    rw [hsub.1, hsub.2]
    rfl

/-- A freshly started attempt records itself in flight under the new
sequence and the new promise, and an uninterfered run of it issues exactly
one `subscribe` — and the refresh exactly when `runResume` is not
explicitly `false` — completing `true`. -/
theorem startAttempt_fresh_run (now now₂ : Nat) (s : Coord) (w t : JSString)
    (rr : Option Bool) (ws : WorkspaceInfo) (hws : s.activeWorkspace = some ws) :
    ∃ s₁ a call,
      startAttempt now s w t (keyForThread w t) rr =
        (s₁, [call], .started s.nextPromiseId (.suspended a call)) ∧
      s₁.backendMode = s.backendMode ∧
      s₁.activeWorkspace = s.activeWorkspace ∧
      s₁.desiredSubscriptionKey = some (keyForThread w t) ∧
      s₁.reconnectSequence = s.reconnectSequence + 1 ∧
      s₁.inFlightReconnect =
        some ⟨keyForThread w t, s.reconnectSequence + 1, s.nextPromiseId⟩ ∧
      countSubscribeFor w t (call :: (resumeToEnd now₂ 8 s₁ a).2.1) = 1 ∧
      countRefreshFor w t (call :: (resumeToEnd now₂ 8 s₁ a).2.1) =
        (if rr = some false then 0 else 1) ∧
      (resumeToEnd now₂ 8 s₁ a).2.2 = some true := by
  unfold startAttempt attemptStartSegment
  dsimp only
  simp only [hws, setState_eq, wsConnected, Option.map_some, Option.getD_some]
  by_cases hb1 : ¬ ws.connected = true ∧ s.hasReconnectWorkspace = true ∧ ws.id = w
  · rw [if_pos hb1]
    refine ⟨_, _, _, rfl, rfl, rfl, rfl, rfl, rfl, ?_, ?_, ?_⟩
    · rw [show (8 : Nat) = 4 + 4 from rfl, resumeToEnd_afterSession now₂ 4]
      by_cases hrr : rr = some false <;>
        by_cases hb3 : s.activeSubscriptionKey = some (keyForThread w t) <;>
        simp [hrr, hb3, countSubscribeFor]
    · rw [show (8 : Nat) = 4 + 4 from rfl, resumeToEnd_afterSession now₂ 4]
      by_cases hrr : rr = some false <;>
        by_cases hb3 : s.activeSubscriptionKey = some (keyForThread w t) <;>
        simp [hrr, hb3, countRefreshFor]
    · rw [show (8 : Nat) = 4 + 4 from rfl, resumeToEnd_afterSession now₂ 4]
  · rw [if_neg hb1]
    unfold attemptFromSeqAfterSession
    dsimp only
    rw [if_neg (by omega : ¬ s.reconnectSequence + 1 ≠ s.reconnectSequence + 1)]
    by_cases hrr : rr = some false
    · rw [if_neg (by simp [hrr] : ¬ rr ≠ some false)]
      unfold attemptFromSeqAfterRefresh attemptFromDedup
      dsimp only
      rw [if_neg (by omega : ¬ s.reconnectSequence + 1 ≠ s.reconnectSequence + 1)]
      by_cases hb3 : s.activeSubscriptionKey = some (keyForThread w t)
      · rw [if_pos hb3]
        refine ⟨_, _, _, rfl, rfl, rfl, rfl, rfl, rfl, ?_, ?_, ?_⟩
        · rw [show (8 : Nat) = 6 + 2 from rfl, resumeToEnd_afterUnsubOld now₂ 6]
          simp [countSubscribeFor]
        · rw [show (8 : Nat) = 6 + 2 from rfl, resumeToEnd_afterUnsubOld now₂ 6]
          simp [hrr, countRefreshFor]
        · rw [show (8 : Nat) = 6 + 2 from rfl, resumeToEnd_afterUnsubOld now₂ 6]
      · rw [if_neg hb3]
        refine ⟨_, _, _, rfl, rfl, rfl, rfl, rfl, rfl, ?_, ?_, ?_⟩
        · rw [show (8 : Nat) = 7 + 1 from rfl, resumeToEnd_afterSubscribe now₂ 7]
          simp [countSubscribeFor]
        · rw [show (8 : Nat) = 7 + 1 from rfl, resumeToEnd_afterSubscribe now₂ 7]
          simp [hrr, countRefreshFor]
        · rw [show (8 : Nat) = 7 + 1 from rfl, resumeToEnd_afterSubscribe now₂ 7]
    · rw [if_pos (by simp [hrr] : (rr ≠ some false))]
      refine ⟨_, _, _, rfl, rfl, rfl, rfl, rfl, rfl, ?_, ?_, ?_⟩
      · rw [show (8 : Nat) = 5 + 3 from rfl, resumeToEnd_afterRefresh now₂ 5]
        by_cases hb3 : s.activeSubscriptionKey = some (keyForThread w t) <;>
          simp [hb3, countSubscribeFor]
      · rw [show (8 : Nat) = 5 + 3 from rfl, resumeToEnd_afterRefresh now₂ 5]
        by_cases hb3 : s.activeSubscriptionKey = some (keyForThread w t) <;>
          simp [hrr, hb3, countRefreshFor]
      · rw [show (8 : Nat) = 5 + 3 from rfl, resumeToEnd_afterRefresh now₂ 5]

/-- As `startAttempt_fresh_run`, through the synchronous entry point
`reconnectLive`, for a call that passes the rejection checks and finds no
coalescable in-flight attempt. -/
theorem reconnectLive_fresh_run (now now₂ : Nat) (s : Coord) (w t : JSString)
    (rr : Option Bool) (ws : WorkspaceInfo)
    (hmode : s.backendMode = remoteStr) (hw : w ≠ []) (ht : t ≠ [])
    (hws : s.activeWorkspace = some ws)
    (hnofl : ∀ fl, s.inFlightReconnect = some fl → fl.key = keyForThread w t →
      fl.sequence ≠ s.reconnectSequence) :
    ∃ s₁ a call,
      reconnectLive now s w t rr =
        (s₁, [call], .started s.nextPromiseId (.suspended a call)) ∧
      s₁.backendMode = s.backendMode ∧
      s₁.activeWorkspace = s.activeWorkspace ∧
      s₁.desiredSubscriptionKey = some (keyForThread w t) ∧
      s₁.reconnectSequence = s.reconnectSequence + 1 ∧
      s₁.inFlightReconnect =
        some ⟨keyForThread w t, s.reconnectSequence + 1, s.nextPromiseId⟩ ∧
      countSubscribeFor w t (call :: (resumeToEnd now₂ 8 s₁ a).2.1) = 1 ∧
      countRefreshFor w t (call :: (resumeToEnd now₂ 8 s₁ a).2.1) =
        (if rr = some false then 0 else 1) ∧
      (resumeToEnd now₂ 8 s₁ a).2.2 = some true := by
  unfold reconnectLive
  dsimp only
  rw [if_neg (by simp [hmode, hw, ht, hws] :
    ¬ (s.backendMode ≠ remoteStr ∨ w = [] ∨ t = [] ∨ s.activeWorkspace = none))]
  split
  next fl heq =>
    by_cases hkey : fl.key = keyForThread w t
    · rw [if_pos hkey]
      rw [if_neg (by
        have := hnofl fl heq hkey
        simpa using this)]
      exact startAttempt_fresh_run now now₂ _ w t rr ws (by simpa using hws)
    · rw [if_neg hkey]
      exact startAttempt_fresh_run now now₂ _ w t rr ws (by simpa using hws)
  next heq =>
    exact startAttempt_fresh_run now now₂ _ w t rr ws (by simpa using hws)

/-- Coalescing, in any state: a `reconnectLive` call that passes the
rejection checks and finds an in-flight attempt for the same key whose
recorded sequence is still current returns that attempt's promise,
changing nothing but the desired key and issuing no external call. -/
theorem reconnectLive_coalesce_general (now₂ : Nat) (s₂ : Coord) (w t : JSString)
    (o₂ : Option Bool) (p : Nat)
    (hmode : s₂.backendMode = remoteStr) (hw : w ≠ []) (ht : t ≠ [])
    (hws : s₂.activeWorkspace ≠ none)
    (hif : s₂.inFlightReconnect = some ⟨keyForThread w t, s₂.reconnectSequence, p⟩) :
    reconnectLive now₂ s₂ w t o₂ =
      ({ s₂ with desiredSubscriptionKey := some (keyForThread w t) }, [],
        .coalesced p) := by
  unfold reconnectLive
  dsimp only
  rw [if_neg (by simp [hmode, hw, ht, hws] :
    ¬ (s₂.backendMode ≠ remoteStr ∨ w = [] ∨ t = [] ∨ s₂.activeWorkspace = none))]
  rw [hif]
  dsimp only
  rw [if_pos rfl, if_pos rfl]

/-- C1: a first `reconnectLive(w, t, o₁)` that starts a fresh attempt and
a second `reconnectLive(w, t, o₂)` issued while that attempt's promise is
unresolved and the sequence unchanged: the second call returns the very
same promise with no external call of its own, and across both calls and
the attempt's full run exactly one underlying `subscribe(w, t)` is
issued. -/
theorem reconnectLive_coalescing (now₁ now₂ now₃ : Nat) (s : Coord) (w t : JSString)
    (o₁ o₂ : Option Bool) (ws : WorkspaceInfo)
    (hmode : s.backendMode = remoteStr) (hw : w ≠ []) (ht : t ≠ [])
    (hws : s.activeWorkspace = some ws)
    (hnofl : ∀ fl, s.inFlightReconnect = some fl → fl.key = keyForThread w t →
      fl.sequence ≠ s.reconnectSequence) :
    ∃ s₁ a call,
      reconnectLive now₁ s w t o₁ =
        (s₁, [call], .started s.nextPromiseId (.suspended a call)) ∧
      reconnectLive now₂ s₁ w t o₂ = (s₁, [], .coalesced s.nextPromiseId) ∧
      countSubscribeFor w t (call :: (resumeToEnd now₃ 8 s₁ a).2.1) = 1 := by
  obtain ⟨s₁, a, call, heq, hbm, haw, hdes, hseq, hifr, hcnt, _, _⟩ :=
    reconnectLive_fresh_run now₁ now₃ s w t o₁ ws hmode hw ht hws hnofl
  have hcoal := reconnectLive_coalesce_general now₂ s₁ w t o₂ s.nextPromiseId
    (hbm.trans hmode) hw ht (by rw [haw, hws]; simp)
    (by rw [hifr, hseq])
  have hrec : { s₁ with desiredSubscriptionKey := some (keyForThread w t) } = s₁ := by
    cases s₁
    simp_all
  exact ⟨s₁, a, call, heq, by rw [hcoal, hrec], hcnt⟩

/-- Witness for C1's theorem at a concrete state. -/
theorem reconnectLive_coalescing_witness :
    ∃ s₁ a call,
      reconnectLive 0 ⟨remoteStr, some ⟨['w'], true⟩, some ['t'],
          RemoteThreadConnectionState.polling, none, none, [], none, 0, 0, true⟩
          ['w'] ['t'] (some true) =
        (s₁, [call], .started 0 (.suspended a call)) ∧
      reconnectLive 1 s₁ ['w'] ['t'] (some false) = (s₁, [], .coalesced 0) ∧
      countSubscribeFor ['w'] ['t'] (call :: (resumeToEnd 2 8 s₁ a).2.1) = 1 :=
  reconnectLive_coalescing 0 1 2
    ⟨remoteStr, some ⟨['w'], true⟩, some ['t'], RemoteThreadConnectionState.polling,
      none, none, [], none, 0, 0, true⟩
    ['w'] ['t'] (some true) (some false) ⟨['w'], true⟩
    rfl (by decide) (by decide) rfl (by simp)

/-- C5 (corrected): during a fresh attempt started by `reconnectLive`, the
resource-refresh collaborator is invoked (and awaited) exactly when
`options.runResume` is not explicitly `false` — in particular it is
invoked when `runResume` is absent. -/
theorem reconnect_runResume_spec (now now₂ : Nat) (s : Coord) (w t : JSString)
    (rr : Option Bool) (ws : WorkspaceInfo)
    (hmode : s.backendMode = remoteStr) (hw : w ≠ []) (ht : t ≠ [])
    (hws : s.activeWorkspace = some ws)
    (hnofl : ∀ fl, s.inFlightReconnect = some fl → fl.key = keyForThread w t →
      fl.sequence ≠ s.reconnectSequence) :
    ∃ s₁ a call,
      reconnectLive now s w t rr =
        (s₁, [call], .started s.nextPromiseId (.suspended a call)) ∧
      countRefreshFor w t (call :: (resumeToEnd now₂ 8 s₁ a).2.1) =
        (if rr = some false then 0 else 1) ∧
      (resumeToEnd now₂ 8 s₁ a).2.2 = some true := by
  obtain ⟨s₁, a, call, heq, _, _, _, _, _, _, hr, hres⟩ :=
    reconnectLive_fresh_run now now₂ s w t rr ws hmode hw ht hws hnofl
  exact ⟨s₁, a, call, heq, hr, hres⟩

/-- Witness for C5's theorem: with `runResume` absent the refresh is
issued exactly once during the attempt. -/
theorem reconnect_runResume_spec_witness :
    ∃ s₁ a call,
      reconnectLive 0 ⟨remoteStr, some ⟨['w'], true⟩, some ['t'],
          RemoteThreadConnectionState.polling, none, none, [], none, 0, 0, true⟩
          ['w'] ['t'] none =
        (s₁, [call], .started 0 (.suspended a call)) ∧
      countRefreshFor ['w'] ['t'] (call :: (resumeToEnd 1 8 s₁ a).2.1) =
        (if (none : Option Bool) = some false then 0 else 1) ∧
      (resumeToEnd 1 8 s₁ a).2.2 = some true :=
  reconnect_runResume_spec 0 1
    ⟨remoteStr, some ⟨['w'], true⟩, some ['t'], RemoteThreadConnectionState.polling,
      none, none, [], none, 0, 0, true⟩
    ['w'] ['t'] none ⟨['w'], true⟩ rfl (by decide) (by decide) rfl (by simp)

/-! ## C8 — sequence monotonicity -/

/-- `finallyCleanup` does not touch the sequence. -/
theorem finallyCleanup_reconnectSequence (s : Coord) (p : Nat) :
    (finallyCleanup s p).reconnectSequence = s.reconnectSequence := by
  unfold finallyCleanup
  split <;> rfl

/-- Reconciliation does not touch the sequence. -/
theorem reconcile_reconnectSequence (s : Coord) :
    (reconcileDisconnectedState s).reconnectSequence = s.reconnectSequence := by
  rw [reconcileDisconnectedState_eq]

/-- The catch handler does not touch the sequence. -/
theorem attemptCatch_reconnectSequence (s : Coord) (a : Attempt) :
    (attemptCatch s a).1.reconnectSequence = s.reconnectSequence := by
  unfold attemptCatch completeAttempt
  dsimp only
  split <;> simp [finallyCleanup_reconnectSequence, reconcile_reconnectSequence]

/-- The dedup-to-subscribe segment does not touch the sequence. -/
theorem attemptFromDedup_reconnectSequence (now : Nat) (s : Coord) (a : Attempt) :
    (attemptFromDedup now s a).1.reconnectSequence = s.reconnectSequence := by
  unfold attemptFromDedup
  split <;> rfl

/-- The post-refresh segment does not touch the sequence. -/
theorem attemptFromSeqAfterRefresh_reconnectSequence (now : Nat) (s : Coord) (a : Attempt) :
    (attemptFromSeqAfterRefresh now s a).1.reconnectSequence = s.reconnectSequence := by
  unfold attemptFromSeqAfterRefresh completeAttempt
  split <;>
    simp [finallyCleanup_reconnectSequence, attemptFromDedup_reconnectSequence]

/-- The post-session segment does not touch the sequence. -/
theorem attemptFromSeqAfterSession_reconnectSequence (now : Nat) (s : Coord) (a : Attempt) :
    (attemptFromSeqAfterSession now s a).1.reconnectSequence = s.reconnectSequence := by
  unfold attemptFromSeqAfterSession completeAttempt
  split
  · simp [finallyCleanup_reconnectSequence]
  · split
    · rfl
    · simp [attemptFromSeqAfterRefresh_reconnectSequence]

/-- The synchronous prefix of the attempt body does not touch the
sequence (the increment happens before it, in `startAttempt`). -/
theorem attemptStartSegment_reconnectSequence (now : Nat) (s : Coord) (a : Attempt) :
    (attemptStartSegment now s a).1.reconnectSequence = s.reconnectSequence := by
  unfold attemptStartSegment
  dsimp only
  split
  · split
    · rfl
    · simp [attemptFromSeqAfterSession_reconnectSequence]
  · simp [attemptFromSeqAfterSession_reconnectSequence]

/-- The completion segment does not touch the sequence. -/
theorem attemptFromSubscribed_reconnectSequence (s : Coord) (a : Attempt) :
    (attemptFromSubscribed s a).1.reconnectSequence = s.reconnectSequence := by
  unfold attemptFromSubscribed completeAttempt
  split
  · split <;> simp [finallyCleanup_reconnectSequence]
  · simp [finallyCleanup_reconnectSequence, setState_eq]

/-- Resuming an in-flight attempt never writes the sequence. -/
theorem attemptRun_reconnectSequence (now : Nat) (s : Coord) (a : Attempt)
    (outcome : ResumeOutcome) :
    (attemptRun now s a outcome).1.reconnectSequence = s.reconnectSequence := by
  cases hpc : a.pc <;> cases outcome <;>
    simp [attemptRun, hpc, attemptStartSegment_reconnectSequence,
      attemptFromSeqAfterSession_reconnectSequence,
      attemptFromSeqAfterRefresh_reconnectSequence,
      attemptFromSubscribed_reconnectSequence, attemptCatch_reconnectSequence,
      completeAttempt, finallyCleanup_reconnectSequence]

/-- Starting a fresh attempt increments the sequence exactly once. -/
theorem startAttempt_reconnectSequence (now : Nat) (s : Coord) (w t k : JSString)
    (rr : Option Bool) :
    (startAttempt now s w t k rr).1.reconnectSequence = s.reconnectSequence + 1 := by
  unfold startAttempt
  dsimp only
  split <;>
    simp [attemptStartSegment_reconnectSequence, finallyCleanup_reconnectSequence,
      setState_eq]

/-- A `reconnectLive` call leaves the sequence unchanged (rejection or
coalescing) or increments it exactly once (fresh attempt). -/
theorem reconnectLive_reconnectSequence (now : Nat) (s : Coord) (w t : JSString)
    (rr : Option Bool) :
    (reconnectLive now s w t rr).1.reconnectSequence = s.reconnectSequence ∨
    (reconnectLive now s w t rr).1.reconnectSequence = s.reconnectSequence + 1 := by
  unfold reconnectLive
  dsimp only
  split
  · exact Or.inl (reconcile_reconnectSequence s)
  · split
    · split
      · split
        · exact Or.inl rfl
        · exact Or.inr (startAttempt_reconnectSequence now _ w t _ rr)
      · exact Or.inr (startAttempt_reconnectSequence now _ w t _ rr)
    · exact Or.inr (startAttempt_reconnectSequence now _ w t _ rr)

/-- The event handler itself never writes the sequence. -/
theorem handleAppServerEvent_reconnectSequence (now : Nat) (visible focused : Bool)
    (s : Coord) (e : AppServerEvent) :
    (handleAppServerEvent now visible focused s e).1.reconnectSequence =
      s.reconnectSequence := by
  unfold handleAppServerEvent
  dsimp only
  repeat' split
  all_goals simp [reconcile_reconnectSequence, setState_eq]

/-- The event handler fires at most one `reconnectLive` trigger. -/
theorem handleAppServerEvent_triggers_length (now : Nat) (visible focused : Bool)
    (s : Coord) (e : AppServerEvent) :
    (handleAppServerEvent now visible focused s e).2.length ≤ 1 := by
  unfold handleAppServerEvent
  dsimp only
  repeat' split
  all_goals simp

/-- `reconnectActiveThread` changes the sequence by zero or one. -/
theorem reconnectActiveThread_reconnectSequence (now : Nat) (s : Coord) :
    (reconnectActiveThread now s).1.reconnectSequence = s.reconnectSequence ∨
    (reconnectActiveThread now s).1.reconnectSequence = s.reconnectSequence + 1 := by
  unfold reconnectActiveThread
  repeat' split
  all_goals try exact Or.inl rfl
  all_goals
    rename_i heq
    have h2 := congrArg
      (fun x : Coord × List ExtCall × ReconnectResult => x.1.reconnectSequence) heq
    dsimp only at h2 ⊢
    rw [← h2]
    exact reconnectLive_reconnectSequence now _ _ _ (some true)

/-- The selection/mode-change effect changes the sequence by zero or
one. -/
theorem selectionEffect_reconnectSequence (now : Nat) (visible : Bool) (s : Coord) :
    (selectionEffect now visible s).1.reconnectSequence = s.reconnectSequence ∨
    (selectionEffect now visible s).1.reconnectSequence = s.reconnectSequence + 1 := by
  unfold selectionEffect
  dsimp only
  repeat' split
  all_goals try (refine Or.inl ?_; simp [reconcile_reconnectSequence]; done)
  all_goals try exact reconnectLive_reconnectSequence now _ _ _ (some true)

/-- Teardown does not touch the sequence. -/
theorem teardownCleanup_reconnectSequence (s : Coord) :
    (teardownCleanup s).1.reconnectSequence = s.reconnectSequence := by
  unfold teardownCleanup
  dsimp only
  split <;> rfl

/-- C8: over every coordinator operation — reconnect calls, blur/hide and
focus/visibility handling, selection changes, event routing with its
fire-and-forget reconnects, attempt resumptions, teardown — the sequence
either stays or is incremented by exactly one (every write is an
increment), and along any sequence of operations it never decreases. -/
theorem reconnectSequence_monotone :
    (∀ (s : Coord) (op : CoordOp),
      (stepCoord s op).reconnectSequence = s.reconnectSequence ∨
      (stepCoord s op).reconnectSequence = s.reconnectSequence + 1) ∧
    (∀ (s : Coord) (ops : List CoordOp),
      s.reconnectSequence ≤ (List.foldl stepCoord s ops).reconnectSequence) := by
  have hstep : ∀ (s : Coord) (op : CoordOp),
      (stepCoord s op).reconnectSequence = s.reconnectSequence ∨
      (stepCoord s op).reconnectSequence = s.reconnectSequence + 1 := by
    intro s op
    cases op with
    | reconnectCall now w t rr => exact reconnectLive_reconnectSequence now s w t rr
    | blurEvent => exact Or.inr (handleBlur_reconnectSequence s)
    | focusEvent now visible =>
      by_cases h : visible = true
      · simp only [stepCoord, h, if_true]
        exact reconnectActiveThread_reconnectSequence now s
      · simp [stepCoord, h]
    | visibilityEvent now visible =>
      by_cases h : visible = true
      · simp only [stepCoord, h, if_true]
        exact reconnectActiveThread_reconnectSequence now s
      · simp only [stepCoord, h, if_false]
        exact Or.inr (handleBlur_reconnectSequence s)
    | selectionChange now visible => exact selectionEffect_reconnectSequence now visible s
    | appEvent now visible focused e =>
      have h1 := handleAppServerEvent_reconnectSequence now visible focused s e
      have hlen := handleAppServerEvent_triggers_length now visible focused s e
      simp only [stepCoord]
      cases htrs : (handleAppServerEvent now visible focused s e).2 with
      | nil =>
        simp only [List.foldl]
        exact Or.inl h1
      | cons tr rest =>
        have hrest : rest = [] := by
          rw [htrs] at hlen
          simpa using hlen
        subst hrest
        simp only [List.foldl, applyTrigger]
        have hv := reconnectLive_reconnectSequence now
          (handleAppServerEvent now visible focused s e).1
          tr.workspaceId tr.threadId (some tr.runResume)
        rw [h1] at hv
        exact hv
    | resumeTask now a outcome => exact Or.inl (attemptRun_reconnectSequence now s a outcome)
    | teardown => exact Or.inl (teardownCleanup_reconnectSequence s)
  refine ⟨hstep, ?_⟩
  intro s ops
  induction ops generalizing s with
  | nil => exact Nat.le_refl _
  | cons op ops ih =>
    have h1 : s.reconnectSequence ≤ (stepCoord s op).reconnectSequence := by
      rcases hstep s op with h | h <;> omega
    exact h1.trans (ih (stepCoord s op))

end CodexMonitor

